import Mathlib

/-!
Shallow embedding of the reading-to-metric translation engine of
`gem-prom.py` (the `update_stats` function and the data it consumes),
together with theorems settling the specification claims about it.

Modelling conventions:
* Python dicts become association lists with first-match lookup
  (`alistGet`); dict update/merge (`{**a, k: v, **b}`) becomes
  `dictInsert` / `dictMerge`, which replace the value of an existing key
  in place and append new keys at the end, exactly as Python dicts do.
* Label values can be strings, integers (the `channel` label) or Python's
  `None` (a missing `location`), so they are an inductive `LabelValue`.
* Floating point readings (voltage, watts, watt-seconds) are carried as
  integers: `update_stats` only passes them through, it never computes
  with them (the watt-second accumulators are only logged).
* `update_stats` mutates the three instruments as it goes and can raise
  a `TypeError` mid-way (membership test on `None` when a configured
  device has no `channels` mapping), so it is embedded as a function
  returning the list of instrument updates applied before returning or
  raising, paired with a flag that is `true` exactly when the Python
  code raises.
-/

namespace GemProm

/-- A value attached to a label name: a string, an int (the `channel`
label) or Python's `None` (a missing `location`). -/
inductive LabelValue where
  | str (s : String)
  | num (n : Nat)
  | null
deriving DecidableEq

/-- A Python dict of labels, as an association list in insertion order. -/
abbrev LabelSet := List (String × LabelValue)

/-- One channel of a device reading, as delivered by the listener
library: zero-based protocol index `number`, instantaneous watts, and
the two cumulative watt-second accumulators. -/
structure ChannelReading where
  number : Nat
  watts : Int
  absolute_watt_seconds : Int
  polarized_watt_seconds : Int
deriving DecidableEq

/-- One device reading: serial number, voltage, ordered channel list. -/
structure Reading where
  serial_number : String
  voltage : Int
  channels : List ChannelReading
deriving DecidableEq

/-- Extra label key/value pairs configured for one hardware channel. -/
abbrev ChannelLabels := List (String × String)

/-- The configuration entry for one device: optional `location` string
and optional mapping from one-based hardware channel number to extra
labels (both keys may be absent from the YAML, hence `Option`). -/
structure DeviceConfig where
  location : Option String
  channels : Option (List (Nat × ChannelLabels))
deriving DecidableEq

/-- The loaded configuration: serial number to device entry. -/
abbrev Config := List (String × DeviceConfig)

/-- First-match lookup in an association list (Python `d[k]` / `d.get(k)`). -/
def alistGet {α β : Type} [DecidableEq α] (d : List (α × β)) (k : α) : Option β :=
  match d with
  | [] => Option.none
  | (k', v) :: rest => if k' = k then some v else alistGet rest k

/-- Python `k in d` on a dict. -/
def alistHasKey {α β : Type} [DecidableEq α] (d : List (α × β)) (k : α) : Bool :=
  (alistGet d k).isSome

/-- Python dict entry assignment `d[k] = v` (value replaced in place if
the key exists, appended otherwise), used to build dict literals. -/
def dictInsert (d : LabelSet) (k : String) (v : LabelValue) : LabelSet :=
  if alistHasKey d k then d.map (fun p => if p.1 = k then (k, v) else p)
  else d ++ [(k, v)]

/-- Python dict merge `{**a, **b}`: entries of `b` override those of `a`. -/
def dictMerge (a b : LabelSet) : LabelSet :=
  b.foldl (fun acc p => dictInsert acc p.1 p.2) a

/-- The label value the code stores for a location read with `.get`:
the string when present, Python `None` when absent. -/
def locationValue : Option String → LabelValue
  | Option.none => LabelValue.null
  | some s => LabelValue.str s

/-- The configured extra labels of a channel, as a label dict. -/
def extraLabelSet (extra : ChannelLabels) : LabelSet :=
  extra.map (fun p => (p.1, LabelValue.str p.2))

/-- `gem_tags`: the base labels of a configured device. -/
def gemTags (serial : String) (location : Option String) : LabelSet :=
  [("serial", LabelValue.str serial), ("location", locationValue location)]

/-- `chan_tags = {**gem_tags, "channel": chan_num, **chan_config_tags}`. -/
def chanTags (gem_tags : LabelSet) (chan_num : Nat) (extra : ChannelLabels) : LabelSet :=
  dictMerge (dictInsert gem_tags "channel" (LabelValue.num chan_num)) (extraLabelSet extra)

/-- One update applied to one of the three instruments. -/
inductive Update where
  | packetInc (labels : LabelSet)
  | voltageSet (labels : LabelSet) (value : Int)
  | powerSet (labels : LabelSet) (value : Int)
deriving DecidableEq

/-- The label dict an update carries. -/
def updateLabels : Update → LabelSet
  | Update.packetInc ls => ls
  | Update.voltageSet ls _ => ls
  | Update.powerSet ls _ => ls

/-- Whether an update targets the `gem_ac_power` gauge. -/
def isPowerUpdate : Update → Bool
  | Update.powerSet _ _ => true
  | _ => false

/-- The label names an update carries, in dict order. -/
def labelNames (u : Update) : List String :=
  (updateLabels u).map Prod.fst

/-- The channel loop of `update_stats` (source lines 87-114): for each
channel, break once `channel.number >= 32`; otherwise test
`chan_num not in channel_config`, which on a device whose entry has no
`channels` mapping is a membership test on `None` and raises `TypeError`
(flag `true`); a missing channel is skipped; a present one emits a
`gem_ac_power` set with the merged tags and the channel's watts. -/
def processChannels (gem_tags : LabelSet) (channel_config : Option (List (Nat × ChannelLabels))) :
    List ChannelReading → List Update × Bool
  | [] => ([], false)
  | c :: rest =>
    if 32 ≤ c.number then ([], false)
    else
      match channel_config with
      | Option.none => ([], true)
      | some ccfg =>
        if alistHasKey ccfg (c.number + 1) then
          let extra := (alistGet ccfg (c.number + 1)).getD []
          let res := processChannels gem_tags channel_config rest
          (Update.powerSet (chanTags gem_tags (c.number + 1) extra) c.watts :: res.1, res.2)
        else
          processChannels gem_tags channel_config rest

/-- `update_stats` (source lines 66-114): increment `gem_packets_rcvd`
labelled by serial; return if the serial is not configured; otherwise
set `gem_ac_voltage` with the base tags and run the channel loop. The
result is the sequence of instrument updates applied, in order, and a
flag that is `true` exactly when a `TypeError` is raised. -/
def update_stats (config : Config) (r : Reading) : List Update × Bool :=
  let packetU := Update.packetInc [("serial", LabelValue.str r.serial_number)]
  match alistGet config r.serial_number with
  | Option.none => ([packetU], false)
  | some dev =>
    let tags := gemTags r.serial_number dev.location
    let res := processChannels tags dev.channels r.channels
    (packetU :: Update.voltageSet tags r.voltage :: res.1, res.2)

/-- The power update the loop emits for one configured channel. -/
def emitUpdate (gem_tags : LabelSet) (ccfg : List (Nat × ChannelLabels))
    (c : ChannelReading) : Update :=
  Update.powerSet (chanTags gem_tags (c.number + 1) ((alistGet ccfg (c.number + 1)).getD []))
    c.watts

/-- The channels of a reading that actually produce a power update when
the device's channel configuration is `ccfg`: those before the first
index `≥ 32`, restricted to configured hardware numbers. -/
def emittedChannels (ccfg : List (Nat × ChannelLabels)) (chs : List ChannelReading) :
    List ChannelReading :=
  (chs.takeWhile (fun c => c.number < 32)).filter (fun c => alistHasKey ccfg (c.number + 1))

/-- The `channel` label values of the power updates of a list, for
updates whose `channel` label is an int. -/
def powerChannelNums (us : List Update) : List Nat :=
  us.filterMap (fun u =>
    match u with
    | Update.powerSet ls _ =>
      match alistGet ls "channel" with
      | some (LabelValue.num n) => some n
      | _ => Option.none
    | _ => Option.none)

/-- A reading from a serial that appears in no configuration at all. -/
def unknownReading : Reading := ⟨"12345", 123, [⟨0, 450, 7, 8⟩]⟩

/-- A device configured with a location but no `channels` mapping. -/
def noChannelsConfig : Config := [("333", ⟨some "garage", Option.none⟩)]

/-- A reading from the device of `noChannelsConfig`. -/
def noChannelsReading : Reading := ⟨"333", 121, [⟨0, 450, 0, 0⟩]⟩

/-- A device whose channel 1 carries an extra label that is itself
named `channel`. -/
def overrideConfig : Config :=
  [("444", ⟨some "garage", some [(1, [("channel", "override")])]⟩)]

/-- A reading from the device of `overrideConfig`. -/
def overrideReading : Reading := ⟨"444", 120, [⟨0, 450, 0, 0⟩]⟩

/-- A small configured device used for determinism checks. -/
def plainConfig : Config := [("555", ⟨some "garage", some [(1, [("circuit", "oven")])]⟩)]

/-- A reading from the device of `plainConfig`. -/
def plainReading : Reading := ⟨"555", 121, [⟨0, 450, 0, 0⟩]⟩

/-- A device with hardware channels 1 and 2 configured. -/
def twoChannelConfig : Config := [("666", ⟨some "garage", some [(1, []), (2, [])]⟩)]

/-- A reading whose channel list is in descending protocol-index order. -/
def descendingReading : Reading := ⟨"666", 120, [⟨1, 200, 0, 0⟩, ⟨0, 450, 0, 0⟩]⟩

/-- A reading whose channel list is in ascending protocol-index order. -/
def ascendingReading : Reading := ⟨"666", 120, [⟨0, 450, 0, 0⟩, ⟨1, 200, 0, 0⟩]⟩

/-- A device whose entry has neither a location nor a channel mapping. -/
def bareConfig : Config := [("777", ⟨Option.none, Option.none⟩)]

/-- A reading from the device of `bareConfig`. -/
def bareReading : Reading := ⟨"777", 120, [⟨0, 100, 0, 0⟩]⟩

/-- A device whose channel 1 is configured with an empty extra-label set. -/
def emptyLabelsConfig : Config := [("888", ⟨some "garage", some [(1, [])]⟩)]

/-- A reading from the device of `emptyLabelsConfig`. -/
def emptyLabelsReading : Reading := ⟨"888", 120, [⟨0, 450, 0, 0⟩]⟩

/-- A device whose channels 1 and 2 are configured with different
extra-label name sets (one has `circuit`, the other none). -/
def mixedLabelsConfig : Config :=
  [("999", ⟨some "loc", some [(1, [("circuit", "oven")]), (2, [])]⟩)]

/-- A reading from the device of `mixedLabelsConfig` touching both
configured channels. -/
def mixedLabelsReading : Reading := ⟨"999", 120, [⟨0, 450, 0, 0⟩, ⟨1, 200, 0, 0⟩]⟩

/-- A reading from the device of `plainConfig` whose channel carries
different watt-second accumulators than `plainReading`. -/
def accumReading : Reading := ⟨"555", 121, [⟨0, 450, 999999, 123456⟩]⟩

/-- A breaking reading: channel index 0 configured, then index 35, then
index 1 configured again; the loop must stop at 35. -/
def breakReading : Reading := ⟨"666", 120, [⟨0, 450, 0, 0⟩, ⟨35, 7, 0, 0⟩, ⟨1, 200, 0, 0⟩]⟩

/-- The key list of a Python dict built by merging a list of new keys
into a base dict: existing keys keep their place, new keys are appended
in first-occurrence order. -/
def mergeNames (base : List String) (ks : List String) : List String :=
  ks.foldl (fun acc k => if k ∈ acc then acc else acc ++ [k]) base

lemma alistGet_mem {α β : Type} [DecidableEq α] (d : List (α × β)) (k : α) (v : β)
    (h : alistGet d k = some v) : (k, v) ∈ d := by
  induction d with
  | nil => simp [alistGet] at h
  | cons p t ih =>
    obtain ⟨a, b⟩ := p
    by_cases hk : a = k
    · subst hk
      simp [alistGet] at h
      simp [h]
    · simp [alistGet, hk] at h
      exact List.mem_cons_of_mem _ (ih h)

lemma alistGet_mapReplace (d : LabelSet) (k : String) (v : LabelValue) :
    alistGet (d.map (fun p => if p.1 = k then (k, v) else p)) k
      = if (alistGet d k).isSome then some v else Option.none := by
  induction d with
  | nil => simp [alistGet]
  | cons p t ih =>
    obtain ⟨a, b⟩ := p
    by_cases hk : a = k
    · subst hk
      simp only [List.map_cons]
      simp [alistGet]
    · simp only [List.map_cons]
      rw [if_neg hk]
      simp only [alistGet, if_neg hk]
      exact ih

lemma alistGet_append_self (d : LabelSet) (k : String) (v : LabelValue)
    (h : alistGet d k = Option.none) : alistGet (d ++ [(k, v)]) k = some v := by
  induction d with
  | nil => simp [alistGet]
  | cons p t ih =>
    obtain ⟨a, b⟩ := p
    by_cases hk : a = k
    · subst hk; simp [alistGet] at h
    · simp only [List.cons_append, alistGet, if_neg hk] at h ⊢
      exact ih h

lemma alistGet_dictInsert_self (d : LabelSet) (k : String) (v : LabelValue) :
    alistGet (dictInsert d k v) k = some v := by
  unfold dictInsert
  by_cases h : alistHasKey d k = true
  · rw [if_pos h, alistGet_mapReplace]
    unfold alistHasKey at h
    rw [if_pos h]
  · rw [if_neg h]
    cases hget : alistGet d k with
    | none => exact alistGet_append_self d k v hget
    | some w => exact absurd (by simp [alistHasKey, hget]) h

lemma alistGet_mapReplace_ne (d : LabelSet) (k' : String) (v : LabelValue) (k : String)
    (h : k' ≠ k) :
    alistGet (d.map (fun p => if p.1 = k' then (k', v) else p)) k = alistGet d k := by
  induction d with
  | nil => rfl
  | cons p t ih =>
    obtain ⟨a, b⟩ := p
    by_cases ha : a = k'
    · subst ha
      have hak : ¬ a = k := fun hc => h (hc ▸ rfl)
      simp only [List.map_cons, if_true]
      simp only [alistGet, if_neg hak]
      exact ih
    · simp only [List.map_cons]
      rw [if_neg ha]
      by_cases hk : a = k
      · subst hk
        simp [alistGet]
      · simp only [alistGet, if_neg hk]
        exact ih

lemma alistGet_append_ne (d : LabelSet) (k' : String) (v : LabelValue) (k : String)
    (h : k' ≠ k) : alistGet (d ++ [(k', v)]) k = alistGet d k := by
  induction d with
  | nil => simp [alistGet, h]
  | cons p t ih =>
    obtain ⟨a, b⟩ := p
    by_cases hk : a = k
    · subst hk; simp [alistGet]
    · simp only [List.cons_append, alistGet, if_neg hk]
      exact ih

lemma alistGet_dictInsert_ne (d : LabelSet) (k' : String) (v : LabelValue) (k : String)
    (h : k' ≠ k) : alistGet (dictInsert d k' v) k = alistGet d k := by
  unfold dictInsert
  split
  · exact alistGet_mapReplace_ne d k' v k h
  · exact alistGet_append_ne d k' v k h

lemma alistGet_dictMerge_of_notMem (a b : LabelSet) (k : String)
    (h : ∀ p ∈ b, p.1 ≠ k) : alistGet (dictMerge a b) k = alistGet a k := by
  induction b generalizing a with
  | nil => rfl
  | cons p t ih =>
    have step : dictMerge a (p :: t) = dictMerge (dictInsert a p.1 p.2) t := rfl
    rw [step, ih (dictInsert a p.1 p.2) (fun q hq => h q (List.mem_cons_of_mem _ hq)),
      alistGet_dictInsert_ne _ _ _ _ (h p (List.mem_cons_self _ _))]

lemma alistGet_chanTags_channel (g : LabelSet) (n : Nat) (extra : ChannelLabels)
    (hx : ∀ p ∈ extra, p.1 ≠ "channel") :
    alistGet (chanTags g n extra) "channel" = some (LabelValue.num n) := by
  unfold chanTags
  rw [alistGet_dictMerge_of_notMem, alistGet_dictInsert_self]
  intro p hp
  unfold extraLabelSet at hp
  obtain ⟨q, hq, rfl⟩ := List.mem_map.mp hp
  exact hx q hq

lemma dictMerge_nil (a : LabelSet) : dictMerge a [] = a := rfl

lemma chanTags_of_empty (s : String) (loc : Option String) (n : Nat) :
    chanTags (gemTags s loc) n [] =
      [("serial", LabelValue.str s), ("location", locationValue loc),
       ("channel", LabelValue.num n)] := by
  unfold chanTags extraLabelSet
  rw [List.map_nil, dictMerge_nil]
  unfold dictInsert
  rw [if_neg (by simp [alistHasKey, alistGet, gemTags])]
  rfl

lemma processChannels_none_fst (g : LabelSet) (chs : List ChannelReading) :
    (processChannels g Option.none chs).1 = [] := by
  cases chs with
  | nil => rfl
  | cons c rest =>
    unfold processChannels
    split <;> rfl

lemma processChannels_some (g : LabelSet) (ccfg : List (Nat × ChannelLabels))
    (chs : List ChannelReading) :
    processChannels g (some ccfg) chs =
      ((emittedChannels ccfg chs).map (emitUpdate g ccfg), false) := by
  induction chs with
  | nil => rfl
  | cons c rest ih =>
    unfold processChannels emittedChannels
    by_cases h32 : 32 ≤ c.number
    · rw [if_pos h32]
      rw [List.takeWhile_cons, if_neg (by simp; omega)]
      rfl
    · rw [if_neg h32]
      rw [List.takeWhile_cons, if_pos (by simp; omega)]
      dsimp only
      by_cases hk : alistHasKey ccfg (c.number + 1) = true
      · rw [if_pos hk, List.filter_cons, if_pos (by simpa using hk), List.map_cons]
        unfold emittedChannels at ih
        rw [ih]
        rfl
      · rw [if_neg hk, List.filter_cons, if_neg (by simpa using hk)]
        unfold emittedChannels at ih
        rw [ih]

lemma processChannels_break (g : LabelSet) (cc : Option (List (Nat × ChannelLabels)))
    (pre post : List ChannelReading) (c : ChannelReading) (h : 32 ≤ c.number) :
    processChannels g cc (pre ++ c :: post) = processChannels g cc pre := by
  induction pre with
  | nil =>
    rw [List.nil_append]
    unfold processChannels
    rw [if_pos h]
  | cons d t ih =>
    rw [List.cons_append]
    unfold processChannels
    by_cases h32 : 32 ≤ d.number
    · rw [if_pos h32, if_pos h32]
    · rw [if_neg h32, if_neg h32]
      cases cc with
      | none => rfl
      | some ccfg =>
        by_cases hk : alistHasKey ccfg (d.number + 1) = true
        · simp only [if_pos hk, ih]
        · simp only [if_neg hk, ih]

lemma update_stats_configured (config : Config) (r : Reading) (dev : DeviceConfig)
    (h : alistGet config r.serial_number = some dev) :
    update_stats config r =
      (Update.packetInc [("serial", LabelValue.str r.serial_number)] ::
       Update.voltageSet (gemTags r.serial_number dev.location) r.voltage ::
       (processChannels (gemTags r.serial_number dev.location) dev.channels r.channels).1,
       (processChannels (gemTags r.serial_number dev.location) dev.channels r.channels).2) := by
  unfold update_stats
  rw [h]

lemma mem_processChannels_powerSet (g : LabelSet) (cc : Option (List (Nat × ChannelLabels)))
    (chs : List ChannelReading) (u : Update) (h : u ∈ (processChannels g cc chs).1) :
    ∃ ls v, u = Update.powerSet ls v := by
  cases cc with
  | none =>
    rw [processChannels_none_fst] at h
    exact absurd h (List.not_mem_nil u)
  | some ccfg =>
    rw [processChannels_some] at h
    obtain ⟨c, _, rfl⟩ := List.mem_map.mp h
    exact ⟨_, _, rfl⟩

lemma mem_emittedChannels (ccfg : List (Nat × ChannelLabels)) (chs : List ChannelReading)
    (c : ChannelReading) (h : c ∈ emittedChannels ccfg chs) : c ∈ chs := by
  unfold emittedChannels at h
  exact ((List.filter_sublist _).trans (List.takeWhile_sublist _)).mem h

lemma alistHasKey_iff_mem {β : Type} (d : List (String × β)) (k : String) :
    alistHasKey d k = true ↔ k ∈ d.map Prod.fst := by
  induction d with
  | nil => simp [alistHasKey, alistGet]
  | cons p t ih =>
    obtain ⟨a, b⟩ := p
    by_cases h : a = k
    · subst h
      simp [alistHasKey, alistGet]
    · have h' : ¬ k = a := fun hc => h hc.symm
      simp only [alistHasKey, alistGet, if_neg h, List.map_cons, List.mem_cons, h',
        false_or]
      exact ih

lemma map_fst_dictInsert (d : LabelSet) (k : String) (v : LabelValue) :
    (dictInsert d k v).map Prod.fst =
      if alistHasKey d k then d.map Prod.fst else d.map Prod.fst ++ [k] := by
  unfold dictInsert
  by_cases h : alistHasKey d k = true
  · rw [if_pos h, if_pos h, List.map_map]
    apply List.map_congr_left
    intro p _
    by_cases hp : p.1 = k
    · simp only [Function.comp_apply, if_pos hp]
      exact hp.symm
    · simp only [Function.comp_apply, if_neg hp]
  · rw [if_neg h, if_neg h, List.map_append]
    rfl

lemma map_fst_dictMerge (a b : LabelSet) :
    (dictMerge a b).map Prod.fst = mergeNames (a.map Prod.fst) (b.map Prod.fst) := by
  induction b generalizing a with
  | nil => rfl
  | cons p t ih =>
    have hstep : dictMerge a (p :: t) = dictMerge (dictInsert a p.1 p.2) t := rfl
    rw [hstep, ih, map_fst_dictInsert]
    show mergeNames
        (if alistHasKey a p.1 then a.map Prod.fst else a.map Prod.fst ++ [p.1])
        (t.map Prod.fst)
      = mergeNames
        (if p.1 ∈ a.map Prod.fst then a.map Prod.fst else a.map Prod.fst ++ [p.1])
        (t.map Prod.fst)
    congr 1
    by_cases h : alistHasKey a p.1 = true
    · rw [if_pos h, if_pos ((alistHasKey_iff_mem a p.1).mp h)]
    · rw [if_neg h, if_neg (fun hm => h ((alistHasKey_iff_mem a p.1).mpr hm))]

lemma map_fst_extraLabelSet (extra : ChannelLabels) :
    (extraLabelSet extra).map Prod.fst = extra.map Prod.fst := by
  unfold extraLabelSet
  rw [List.map_map]
  apply List.map_congr_left
  intro p _
  rfl

lemma map_fst_chanTags (s : String) (loc : Option String) (n : Nat)
    (extra : ChannelLabels) :
    (chanTags (gemTags s loc) n extra).map Prod.fst
      = mergeNames ["serial", "location", "channel"] (extra.map Prod.fst) := by
  unfold chanTags
  rw [map_fst_dictMerge, map_fst_dictInsert,
    if_neg (by simp [alistHasKey, alistGet, gemTags]), map_fst_extraLabelSet]
  rfl

lemma processChannels_congr (g : LabelSet) (cc : Option (List (Nat × ChannelLabels)))
    (chs1 chs2 : List ChannelReading)
    (h : chs1.map (fun c => (c.number, c.watts)) = chs2.map (fun c => (c.number, c.watts))) :
    processChannels g cc chs1 = processChannels g cc chs2 := by
  induction chs1 generalizing chs2 with
  | nil =>
    cases chs2 with
    | nil => rfl
    | cons d u => simp at h
  | cons c t ih =>
    cases chs2 with
    | nil => simp at h
    | cons d u =>
      simp only [List.map_cons, List.cons.injEq, Prod.mk.injEq] at h
      obtain ⟨⟨hn, hw⟩, ht⟩ := h
      unfold processChannels
      rw [hn, hw, ih u ht]

/--
C1: a reading from a device whose serial number is absent from the
configuration produces exactly one packet-received increment labelled
with that serial, and no voltage or power update (and no error).
-/
theorem c1_unconfigured_device (config : Config) (r : Reading)
    (h : alistGet config r.serial_number = Option.none) :
    update_stats config r =
      ([Update.packetInc [("serial", LabelValue.str r.serial_number)]], false) := by
  unfold update_stats
  rw [h]

theorem c1_unconfigured_device_witness :
    alistGet ([] : Config) unknownReading.serial_number = Option.none ∧
    update_stats [] unknownReading =
      ([Update.packetInc [("serial", LabelValue.str unknownReading.serial_number)]], false) :=
  ⟨rfl, c1_unconfigured_device [] unknownReading rfl⟩

/--
C2: for a configured device, a channel reading whose protocol index is
at least 32 stops channel processing entirely: the result of the whole
reading equals the result of the reading truncated just before that
channel, so neither that channel nor any later one produces a power
update.
-/
theorem c2_short_circuit (config : Config) (r : Reading) (dev : DeviceConfig)
    (pre post : List ChannelReading) (c : ChannelReading)
    (hdev : alistGet config r.serial_number = some dev)
    (hch : r.channels = pre ++ c :: post) (h32 : 32 ≤ c.number) :
    update_stats config r = update_stats config { r with channels := pre } := by
  rw [update_stats_configured config r dev hdev,
    update_stats_configured config { r with channels := pre } dev hdev,
    hch, processChannels_break _ _ _ _ _ h32]

theorem c2_short_circuit_witness :
    alistGet twoChannelConfig breakReading.serial_number
      = some ⟨some "garage", some [(1, []), (2, [])]⟩ ∧
    breakReading.channels = [⟨0, 450, 0, 0⟩] ++ ⟨35, 7, 0, 0⟩ :: [⟨1, 200, 0, 0⟩] ∧
    32 ≤ (⟨35, 7, 0, 0⟩ : ChannelReading).number ∧
    update_stats twoChannelConfig breakReading
      = update_stats twoChannelConfig { breakReading with channels := [⟨0, 450, 0, 0⟩] } :=
  ⟨rfl, rfl, by decide,
    c2_short_circuit twoChannelConfig breakReading ⟨some "garage", some [(1, []), (2, [])]⟩
      [⟨0, 450, 0, 0⟩] [⟨1, 200, 0, 0⟩] ⟨35, 7, 0, 0⟩ rfl rfl (by decide)⟩

/--
C5: resolution is a pure function of the reading and the configuration:
processing equal readings against the same configuration yields
identical update lists, in the same order.
-/
theorem c5_deterministic (config : Config) (r1 r2 : Reading) (h : r1 = r2) :
    update_stats config r1 = update_stats config r2 := by
  rw [h]

theorem c5_deterministic_witness :
    plainReading = plainReading ∧
    update_stats plainConfig plainReading = update_stats plainConfig plainReading :=
  ⟨rfl, c5_deterministic plainConfig plainReading plainReading rfl⟩

/--
C10: the updates produced for a reading do not depend on the channels'
cumulative watt-second accumulators: two readings that agree on serial,
voltage and each channel's (index, watts) produce identical results,
whatever their absolute or polarized accumulators are.
-/
theorem c10_accumulator_independence (config : Config) (r1 r2 : Reading)
    (hs : r1.serial_number = r2.serial_number) (hv : r1.voltage = r2.voltage)
    (hc : r1.channels.map (fun c => (c.number, c.watts))
        = r2.channels.map (fun c => (c.number, c.watts))) :
    update_stats config r1 = update_stats config r2 := by
  unfold update_stats
  rw [hs, hv]
  cases h : alistGet config r2.serial_number with
  | none => rfl
  | some dev =>
    dsimp only
    rw [processChannels_congr (gemTags r2.serial_number dev.location) dev.channels
      r1.channels r2.channels hc]

/--
C3 (code bug): when a configured device's entry has no `channels`
mapping at all, the first channel reading with index below 32 makes the
code run `chan_num not in None`, which raises a `TypeError` instead of
skipping the channel: the packet increment and the voltage set have
been applied and the error flag is raised.
-/
theorem c3_missing_channels_raises :
    update_stats noChannelsConfig noChannelsReading =
      ([Update.packetInc [("serial", LabelValue.str "333")],
        Update.voltageSet [("serial", LabelValue.str "333"),
          ("location", LabelValue.str "garage")] 121],
       true) := by decide

/--
C7 (code bug): for a configured device whose entry lacks a location the
voltage update is emitted with the `location` label carrying Python
`None` (the empty value), but when the entry also lacks a `channels`
mapping the subsequent channel processing raises a `TypeError`, so
processing does not always continue without error.
-/
theorem c7_missing_location_eval :
    update_stats bareConfig bareReading =
      ([Update.packetInc [("serial", LabelValue.str "777")],
        Update.voltageSet [("serial", LabelValue.str "777"),
          ("location", LabelValue.null)] 120],
       true) := by decide

/--
C4 counterexample: a channel whose configured extra labels contain a
key named `channel` overrides the computed hardware number in the
merged dict, so the power update of the channel with protocol index 0
carries `channel = "override"` instead of the number 1.
-/
theorem c4_counterexample :
    isPowerUpdate
      ((update_stats overrideConfig overrideReading).1.getD 2 (Update.packetInc [])) = true ∧
    alistGet
      (updateLabels
        ((update_stats overrideConfig overrideReading).1.getD 2 (Update.packetInc [])))
      "channel" = some (LabelValue.str "override") ∧
    some (LabelValue.str "override") ≠ some (LabelValue.num (0 + 1)) := by decide

/--
C4 amended: in every power update emitted for a configured device, the
`channel` label value equals the channel reading's protocol index plus
one, provided no configured extra label of the device is itself named
`channel` (an extra label named `channel` would override the value).
-/
theorem c4_channel_label (config : Config) (r : Reading) (dev : DeviceConfig)
    (ccfg : List (Nat × ChannelLabels)) (ls : LabelSet) (v : Int)
    (hdev : alistGet config r.serial_number = some dev)
    (hch : dev.channels = some ccfg)
    (hextra : ∀ p ∈ ccfg, ∀ q ∈ p.2, q.1 ≠ "channel")
    (hmem : Update.powerSet ls v ∈ (update_stats config r).1) :
    ∃ c ∈ r.channels,
      alistGet ls "channel" = some (LabelValue.num (c.number + 1)) ∧ v = c.watts := by
  rw [update_stats_configured config r dev hdev] at hmem
  simp only [List.mem_cons] at hmem
  rcases hmem with h1 | h2 | h3
  · exact absurd h1 (by simp)
  · exact absurd h2 (by simp)
  · rw [hch, processChannels_some] at h3
    obtain ⟨c, hc, heq⟩ := List.mem_map.mp h3
    unfold emitUpdate at heq
    injection heq with hls hv
    refine ⟨c, mem_emittedChannels ccfg r.channels c hc, ?_, hv.symm⟩
    rw [← hls]
    apply alistGet_chanTags_channel
    intro p hp
    cases hget : alistGet ccfg (c.number + 1) with
    | none => rw [hget] at hp; simp at hp
    | some extra =>
      rw [hget] at hp
      simp only [Option.getD_some] at hp
      exact hextra (c.number + 1, extra) (alistGet_mem _ _ _ hget) p hp

theorem c4_channel_label_witness :
    alistGet plainConfig plainReading.serial_number
      = some ⟨some "garage", some [(1, [("circuit", "oven")])]⟩ ∧
    (∃ c ∈ plainReading.channels,
      alistGet [("serial", LabelValue.str "555"), ("location", LabelValue.str "garage"),
          ("channel", LabelValue.num 1), ("circuit", LabelValue.str "oven")] "channel"
        = some (LabelValue.num (c.number + 1)) ∧ (450 : Int) = c.watts) :=
  ⟨rfl,
    c4_channel_label plainConfig plainReading ⟨some "garage", some [(1, [("circuit", "oven")])]⟩
      [(1, [("circuit", "oven")])]
      [("serial", LabelValue.str "555"), ("location", LabelValue.str "garage"),
        ("channel", LabelValue.num 1), ("circuit", LabelValue.str "oven")] 450
      rfl rfl (by decide) (by decide)⟩

/--
C6 counterexample: a reading that lists its channels in descending
protocol-index order produces its power updates in that same source
order (channel numbers [2, 1]), which is not ascending, so the claimed
ascending order is violated.
-/
theorem c6_counterexample :
    powerChannelNums (update_stats twoChannelConfig descendingReading).1 = [2, 1] ∧
    ¬ List.Pairwise (fun a b : Nat => a ≤ b)
        (powerChannelNums (update_stats twoChannelConfig descendingReading).1) :=
  ⟨by decide, by decide⟩

/--
C6 amended: for every reading of a configured device the updates are
ordered packet increment first, then the voltage update, then the power
updates in the source order of their channels (the map over
`emittedChannels`, a sublist of the reading's channel list); and
whenever the reading lists its channels in strictly ascending
protocol-index order, the channels that produce power updates are in
ascending order as well.
-/
theorem c6_update_order (config : Config) (r : Reading) (dev : DeviceConfig)
    (ccfg : List (Nat × ChannelLabels))
    (hdev : alistGet config r.serial_number = some dev)
    (hch : dev.channels = some ccfg) :
    (update_stats config r).1 =
      Update.packetInc [("serial", LabelValue.str r.serial_number)] ::
      Update.voltageSet (gemTags r.serial_number dev.location) r.voltage ::
      (emittedChannels ccfg r.channels).map
        (emitUpdate (gemTags r.serial_number dev.location) ccfg) ∧
    (List.Pairwise (fun a b : ChannelReading => a.number < b.number) r.channels →
      List.Pairwise (fun a b : ChannelReading => a.number < b.number)
        (emittedChannels ccfg r.channels)) := by
  constructor
  · rw [update_stats_configured config r dev hdev, hch, processChannels_some]
  · intro hsort
    exact List.Pairwise.sublist
      ((List.filter_sublist _).trans (List.takeWhile_sublist _)) hsort

theorem c6_update_order_witness :
    alistGet twoChannelConfig descendingReading.serial_number
      = some ⟨some "garage", some [(1, []), (2, [])]⟩ ∧
    ((update_stats twoChannelConfig descendingReading).1 =
      Update.packetInc [("serial", LabelValue.str descendingReading.serial_number)] ::
      Update.voltageSet (gemTags descendingReading.serial_number (some "garage"))
        descendingReading.voltage ::
      (emittedChannels [(1, []), (2, [])] descendingReading.channels).map
        (emitUpdate (gemTags descendingReading.serial_number (some "garage"))
          [(1, []), (2, [])]) ∧
     (List.Pairwise (fun a b : ChannelReading => a.number < b.number)
        descendingReading.channels →
      List.Pairwise (fun a b : ChannelReading => a.number < b.number)
        (emittedChannels [(1, []), (2, [])] descendingReading.channels))) :=
  ⟨rfl,
    c6_update_order twoChannelConfig descendingReading
      ⟨some "garage", some [(1, []), (2, [])]⟩ [(1, []), (2, [])] rfl rfl⟩

/--
C8: a configured channel whose configured extra-label set is empty
still produces a power update, whose labels are exactly the base labels
(serial, location) plus the `channel` label and nothing else, and the
reading is processed without error.
-/
theorem c8_empty_extra_labels (config : Config) (r : Reading) (dev : DeviceConfig)
    (ccfg : List (Nat × ChannelLabels)) (c : ChannelReading)
    (hdev : alistGet config r.serial_number = some dev)
    (hch : dev.channels = some ccfg)
    (hmem : c ∈ r.channels.takeWhile (fun c => c.number < 32))
    (hempty : alistGet ccfg (c.number + 1) = some []) :
    Update.powerSet [("serial", LabelValue.str r.serial_number),
        ("location", locationValue dev.location),
        ("channel", LabelValue.num (c.number + 1))] c.watts
      ∈ (update_stats config r).1 ∧
    (update_stats config r).2 = false := by
  rw [update_stats_configured config r dev hdev, hch, processChannels_some]
  dsimp only
  constructor
  · refine List.mem_cons_of_mem _ (List.mem_cons_of_mem _ ?_)
    have hcm : c ∈ emittedChannels ccfg r.channels :=
      List.mem_filter.mpr ⟨hmem, by simp [alistHasKey, hempty]⟩
    have hemit : emitUpdate (gemTags r.serial_number dev.location) ccfg c =
        Update.powerSet [("serial", LabelValue.str r.serial_number),
          ("location", locationValue dev.location),
          ("channel", LabelValue.num (c.number + 1))] c.watts := by
      unfold emitUpdate
      rw [hempty, Option.getD_some, chanTags_of_empty]
    rw [← hemit]
    exact List.mem_map_of_mem _ hcm
  · rfl

theorem c8_empty_extra_labels_witness :
    alistGet emptyLabelsConfig emptyLabelsReading.serial_number
      = some ⟨some "garage", some [(1, [])]⟩ ∧
    (Update.powerSet [("serial", LabelValue.str "888"), ("location", LabelValue.str "garage"),
        ("channel", LabelValue.num 1)] 450
      ∈ (update_stats emptyLabelsConfig emptyLabelsReading).1 ∧
     (update_stats emptyLabelsConfig emptyLabelsReading).2 = false) :=
  ⟨rfl,
    c8_empty_extra_labels emptyLabelsConfig emptyLabelsReading
      ⟨some "garage", some [(1, [])]⟩ [(1, [])] ⟨0, 450, 0, 0⟩ rfl rfl (by decide) rfl⟩

/--
C9 counterexample: two power updates of the same configured device
carry different label-name sets — the update of channel 1 has a
`circuit` label, the update of channel 2 does not — so the updates of
the power instrument do not all carry the same label names.
-/
theorem c9_counterexample :
    isPowerUpdate
      ((update_stats mixedLabelsConfig mixedLabelsReading).1.getD 2 (Update.packetInc []))
      = true ∧
    isPowerUpdate
      ((update_stats mixedLabelsConfig mixedLabelsReading).1.getD 3 (Update.packetInc []))
      = true ∧
    "circuit" ∈ labelNames
      ((update_stats mixedLabelsConfig mixedLabelsReading).1.getD 2 (Update.packetInc [])) ∧
    "circuit" ∉ labelNames
      ((update_stats mixedLabelsConfig mixedLabelsReading).1.getD 3 (Update.packetInc [])) := by
  decide

/--
C9 amended: every packet-counter update carries exactly the label name
`serial` and every voltage update carries exactly the names `serial`
and `location` (stable name sets for those two instruments, for every
device, configured or not); every power update carries exactly the
names `serial`, `location`, `channel` plus its channel's configured
extra label names merged in dict order, so the power instrument's name
sets can differ between channels with different configured extra names.
-/
theorem c9_label_name_sets (config : Config) (r : Reading) :
    (∀ ls, Update.packetInc ls ∈ (update_stats config r).1 →
      ls.map Prod.fst = ["serial"]) ∧
    (∀ ls v, Update.voltageSet ls v ∈ (update_stats config r).1 →
      ls.map Prod.fst = ["serial", "location"]) ∧
    (∀ ls v, Update.powerSet ls v ∈ (update_stats config r).1 →
      ∃ dev ccfg c, alistGet config r.serial_number = some dev ∧
        dev.channels = some ccfg ∧ c ∈ r.channels ∧
        ls.map Prod.fst = mergeNames ["serial", "location", "channel"]
          (((alistGet ccfg (c.number + 1)).getD []).map Prod.fst)) := by
  refine ⟨?_, ?_, ?_⟩
  · intro ls hp
    cases hcfg : alistGet config r.serial_number with
    | none =>
      unfold update_stats at hp
      rw [hcfg] at hp
      simp only [List.mem_cons, List.not_mem_nil, or_false, Update.packetInc.injEq] at hp
      rw [hp]
      rfl
    | some dev =>
      rw [update_stats_configured config r dev hcfg] at hp
      simp only [List.mem_cons] at hp
      rcases hp with p1 | p2 | p3
      · injection p1 with hls
        rw [hls]
        rfl
      · exact absurd p2 (by simp)
      · obtain ⟨ls2, v2, heq⟩ := mem_processChannels_powerSet _ _ _ _ p3
        exact absurd heq (by simp)
  · intro ls v hv
    cases hcfg : alistGet config r.serial_number with
    | none =>
      unfold update_stats at hv
      rw [hcfg] at hv
      simp at hv
    | some dev =>
      rw [update_stats_configured config r dev hcfg] at hv
      simp only [List.mem_cons] at hv
      rcases hv with h1 | h2 | h3
      · exact absurd h1 (by simp)
      · injection h2 with hls
        rw [hls]
        rfl
      · obtain ⟨ls2, v2, heq⟩ := mem_processChannels_powerSet _ _ _ _ h3
        exact absurd heq (by simp)
  · intro ls v hw
    cases hcfg : alistGet config r.serial_number with
    | none =>
      unfold update_stats at hw
      rw [hcfg] at hw
      simp at hw
    | some dev =>
      rw [update_stats_configured config r dev hcfg] at hw
      simp only [List.mem_cons] at hw
      rcases hw with h1 | h2 | h3
      · exact absurd h1 (by simp)
      · exact absurd h2 (by simp)
      · cases hchn : dev.channels with
        | none =>
          rw [hchn, processChannels_none_fst] at h3
          exact absurd h3 (List.not_mem_nil _)
        | some ccfg =>
          rw [hchn, processChannels_some] at h3
          obtain ⟨c, hc, heq⟩ := List.mem_map.mp h3
          unfold emitUpdate at heq
          injection heq with hls hv
          refine ⟨dev, ccfg, c, rfl, hchn,
            mem_emittedChannels ccfg r.channels c hc, ?_⟩
          rw [← hls, map_fst_chanTags]

theorem c9_label_name_sets_witness :
    ([("serial", LabelValue.str "555")] : LabelSet).map Prod.fst = ["serial"] ∧
    ([("serial", LabelValue.str "555"), ("location", LabelValue.str "garage")] : LabelSet).map
      Prod.fst = ["serial", "location"] ∧
    (∃ dev ccfg c, alistGet plainConfig plainReading.serial_number = some dev ∧
      dev.channels = some ccfg ∧ c ∈ plainReading.channels ∧
      ([("serial", LabelValue.str "555"), ("location", LabelValue.str "garage"),
        ("channel", LabelValue.num 1), ("circuit", LabelValue.str "oven")] : LabelSet).map
          Prod.fst
        = mergeNames ["serial", "location", "channel"]
            (((alistGet ccfg (c.number + 1)).getD []).map Prod.fst)) :=
  ⟨(c9_label_name_sets plainConfig plainReading).1
      [("serial", LabelValue.str "555")] (by decide),
   (c9_label_name_sets plainConfig plainReading).2.1
      [("serial", LabelValue.str "555"), ("location", LabelValue.str "garage")] 121
      (by decide),
   (c9_label_name_sets plainConfig plainReading).2.2
      [("serial", LabelValue.str "555"), ("location", LabelValue.str "garage"),
        ("channel", LabelValue.num 1), ("circuit", LabelValue.str "oven")] 450
      (by decide)⟩

theorem c10_accumulator_independence_witness :
    plainReading.serial_number = accumReading.serial_number ∧
    plainReading.voltage = accumReading.voltage ∧
    plainReading.channels.map (fun c => (c.number, c.watts))
      = accumReading.channels.map (fun c => (c.number, c.watts)) ∧
    update_stats plainConfig plainReading = update_stats plainConfig accumReading :=
  ⟨rfl, rfl, rfl,
    c10_accumulator_independence plainConfig plainReading accumReading rfl rfl rfl⟩

end GemProm
